import Mathlib

/-!
Verification of the adaptive concurrency controller of `apify-runtime-js`.

The definitions below are a shallow embedding of the `Snapshotter` class
(`src/autoscaling/snapshotter.js`) and — where the source is absent from the
repository snapshot — of the `AutoscaledPool` scheduler as described by the
design document.  JavaScript numbers and `Date` timestamps are modelled as
rationals (`ℚ`); millisecond arithmetic on `Date` objects is exact integer
arithmetic in practice, and all ratios in play are exact decimals, so `ℚ`
is a faithful carrier.  Fallible operations (the asynchronous memory probe,
the indexing into an empty history) are modelled with `Except` / `Option`.
-/

namespace Apify

/-- Result of the `getMemoryInfo()` probe: the fields `_snapshotMemory` reads. -/
structure MemInfo where
  mainProcessBytes : ℚ
  childProcessesBytes : ℚ
deriving DecidableEq, Repr

/-- One entry of `this.memorySnapshots`: `Object.assign(memInfo, { createdAt, isOverloaded })`. -/
structure MemorySnapshot where
  createdAt : ℚ
  isOverloaded : Bool
  mainProcessBytes : ℚ
  childProcessesBytes : ℚ
deriving DecidableEq, Repr

/-- One entry of `this.eventLoopSnapshots`. -/
structure EventLoopSnapshot where
  createdAt : ℚ
  isOverloaded : Bool
  exceededMillis : ℚ
deriving DecidableEq, Repr

/-- One entry of `this.cpuSnapshots`. -/
structure CpuSnapshot where
  createdAt : ℚ
  isOverloaded : Bool
deriving DecidableEq, Repr

/-- The payload of the external `cpu_info` push event consumed by `_snapshotCpu`. -/
structure CpuInfoEvent where
  createdAt : ℚ
  isCpuOverloaded : Bool
deriving DecidableEq, Repr

/-- The raw constructor options of `Snapshotter` (after `_.defaults`). -/
structure SnapshotterOptions where
  eventLoopSnapshotIntervalSecs : ℚ
  memorySnapshotIntervalSecs : ℚ
  snapshotHistorySecs : ℚ
  maxBlockedRatio : ℚ
  minFreeMemoryRatio : ℚ
  maxMemoryMbytes : Option ℚ
deriving DecidableEq, Repr

/-- The immutable configuration fields the `Snapshotter` constructor derives
(`this.eventLoopSnapshotIntervalMillis`, …).  `maxMemoryBytes` is resolved at
`start()` when not fixed by `maxMemoryMbytes`; here it is carried as a plain
field (see `Snapshotter.ofOptions`). -/
structure SnapshotterConfig where
  eventLoopSnapshotIntervalMillis : ℚ
  memorySnapshotIntervalMillis : ℚ
  snapshotHistoryMillis : ℚ
  maxBlockedMillis : ℚ
  minFreeMemoryRatio : ℚ
  maxMemoryBytes : ℚ
deriving DecidableEq, Repr

/-- The `Snapshotter` constructor, lines 41-46 of the source: converts the
second-based options to milliseconds and derives `maxBlockedMillis`.
`measuredMaxMemoryBytes` stands for the value `start()` computes from
`getMemoryInfo()` when `maxMemoryMbytes` is falsy (absent or zero). -/
def Snapshotter.ofOptions (o : SnapshotterOptions) (measuredMaxMemoryBytes : ℚ) :
    SnapshotterConfig :=
  { eventLoopSnapshotIntervalMillis := o.eventLoopSnapshotIntervalSecs * 1000
    memorySnapshotIntervalMillis := o.memorySnapshotIntervalSecs * 1000
    snapshotHistoryMillis := o.snapshotHistorySecs * 1000
    maxBlockedMillis := 1000 * o.eventLoopSnapshotIntervalSecs * o.maxBlockedRatio
    minFreeMemoryRatio := o.minFreeMemoryRatio
    maxMemoryBytes :=
      match o.maxMemoryMbytes with
      | some m => if m = 0 then measuredMaxMemoryBytes else m * 1024 * 1024
      | none => measuredMaxMemoryBytes }

/-- The mutable state of a `Snapshotter` instance: the three history arrays. -/
structure SnapshotterState where
  cpuSnapshots : List CpuSnapshot
  eventLoopSnapshots : List EventLoopSnapshot
  memorySnapshots : List MemorySnapshot
deriving DecidableEq, Repr

/-- The state right after construction: three empty histories. -/
def initialSnapshotterState : SnapshotterState :=
  { cpuSnapshots := [], eventLoopSnapshots := [], memorySnapshots := [] }

/-- `_pruneSnapshots(snapshots, now)`: counts the leading entries with
`now - createdAt > snapshotHistoryMillis`, stopping at the first young entry,
and splices that prefix off.  This is exactly `List.dropWhile`. -/
def pruneSnapshots {α : Type} (created : α → ℚ) (historyMillis : ℚ) (now : ℚ)
    (snapshots : List α) : List α :=
  snapshots.dropWhile (fun s => decide (now - created s > historyMillis))

/-- `_getSample(snapshots, sampleDurationMillis)`.  A `none` duration models an
absent (`undefined`) argument; `!sampleDurationMillis` is true for both `none`
and `some 0`.  The JS loop walks the array from its end, `unshift`ing entries
while `latestTime - createdAt <= sampleDurationMillis` and breaking at the
first older entry — i.e. it take-whiles over the reversed list. -/
def getSample {α : Type} (created : α → ℚ) (snapshots : List α)
    (sampleDurationMillis : Option ℚ) : List α :=
  match sampleDurationMillis with
  | none => snapshots
  | some d =>
    if d = 0 then snapshots
    else
      match snapshots.getLast? with
      | none => []
      | some last =>
        ((snapshots.reverse).takeWhile
          (fun s => decide (created last - created s ≤ d))).reverse

/-- `getMemorySample(sampleDurationMillis)`.  The method only reads the state,
so the embedding returns the (unchanged) state together with the sample. -/
def getMemorySample (st : SnapshotterState) (sampleDurationMillis : Option ℚ) :
    SnapshotterState × List MemorySnapshot :=
  (st, getSample MemorySnapshot.createdAt st.memorySnapshots sampleDurationMillis)

/-- `getEventLoopSample(sampleDurationMillis)`. -/
def getEventLoopSample (st : SnapshotterState) (sampleDurationMillis : Option ℚ) :
    SnapshotterState × List EventLoopSnapshot :=
  (st, getSample EventLoopSnapshot.createdAt st.eventLoopSnapshots sampleDurationMillis)

/-- `getCpuSample(sampleDurationMillis)`. -/
def getCpuSample (st : SnapshotterState) (sampleDurationMillis : Option ℚ) :
    SnapshotterState × List CpuSnapshot :=
  (st, getSample CpuSnapshot.createdAt st.cpuSnapshots sampleDurationMillis)

/-- `_snapshotMemory(intervalCallback)`.  The memory probe is asynchronous and
may throw; the whole body is wrapped in `try`/`catch` with the interval
callback invoked in `finally`.  The returned `Bool` records that the interval
callback ran.  On a probe failure nothing has been pruned or pushed yet, so
the state is returned untouched. -/
def snapshotMemory (cfg : SnapshotterConfig) (st : SnapshotterState) (now : ℚ)
    (memInfoResult : Except Unit MemInfo) : SnapshotterState × Bool :=
  match memInfoResult with
  | Except.error _ => (st, true)
  | Except.ok memInfo =>
    ({ st with memorySnapshots :=
        (pruneSnapshots MemorySnapshot.createdAt cfg.snapshotHistoryMillis now
            st.memorySnapshots)
          ++ [{ createdAt := now,
                isOverloaded :=
                  decide ((memInfo.mainProcessBytes + memInfo.childProcessesBytes)
                    / cfg.maxMemoryBytes > cfg.minFreeMemoryRatio),
                mainProcessBytes := memInfo.mainProcessBytes,
                childProcessesBytes := memInfo.childProcessesBytes }] },
     true)

/-- The body of `_snapshotEventLoop` acting on the already-pruned history.
Reading `snapshots[snapshots.length - 1]` of an empty array yields `undefined`
and the destructuring of `createdAt` throws, which the `catch` swallows — the
pruned (empty) history remains in place and nothing is pushed. -/
def eventLoopTickOn (cfg : SnapshotterConfig) (now : ℚ)
    (pruned : List EventLoopSnapshot) : List EventLoopSnapshot :=
  match pruned.getLast? with
  | none => pruned
  | some last =>
    pruned ++ [{ createdAt := now,
                 isOverloaded :=
                   decide (now - last.createdAt - cfg.eventLoopSnapshotIntervalMillis
                     > cfg.maxBlockedMillis),
                 exceededMillis :=
                   max (now - last.createdAt - cfg.eventLoopSnapshotIntervalMillis
                     - cfg.maxBlockedMillis) 0 }]

/-- `_snapshotEventLoop(intervalCallback)`: prune with `now`, then compare
`now` against the latest remaining sample; the interval callback always runs
(`finally`). -/
def snapshotEventLoop (cfg : SnapshotterConfig) (st : SnapshotterState) (now : ℚ) :
    SnapshotterState × Bool :=
  ({ st with eventLoopSnapshots :=
      (eventLoopTickOn cfg now
        (pruneSnapshots EventLoopSnapshot.createdAt cfg.snapshotHistoryMillis now
          st.eventLoopSnapshots)) },
   true)

/-- `_snapshotCpu(cpuInfoEvent)`: prunes with the event's own timestamp and
records the pushed overload verdict verbatim. -/
def snapshotCpu (cfg : SnapshotterConfig) (st : SnapshotterState)
    (evt : CpuInfoEvent) : SnapshotterState :=
  { st with cpuSnapshots :=
      (pruneSnapshots CpuSnapshot.createdAt cfg.snapshotHistoryMillis evt.createdAt
          st.cpuSnapshots)
        ++ [{ createdAt := evt.createdAt, isOverloaded := evt.isCpuOverloaded }] }

/-- The baseline event-loop sample pushed by `start()` so the first real
sample has a predecessor to compare against. -/
def startSeed (st : SnapshotterState) (now : ℚ) : SnapshotterState :=
  { st with eventLoopSnapshots :=
      st.eventLoopSnapshots
        ++ [{ createdAt := now, isOverloaded := false, exceededMillis := 0 }] }

/-- Iterated event-loop sampling ticks at the given sequence of times. -/
def runEventLoopTicks (cfg : SnapshotterConfig) (st : SnapshotterState)
    (times : List ℚ) : SnapshotterState :=
  times.foldl (fun s t => (snapshotEventLoop cfg s t).1) st

/-- A concrete configuration used to instantiate hypotheses of the general
theorems: the default options (0.5 s event-loop interval, 60 s history,
`maxBlockedRatio` 0.1, `minFreeMemoryRatio` 0.7) with a 100-byte memory
ceiling for easy arithmetic. -/
def demoConfig : SnapshotterConfig :=
  { eventLoopSnapshotIntervalMillis := 500
    memorySnapshotIntervalMillis := 1000
    snapshotHistoryMillis := 60000
    maxBlockedMillis := 50
    minFreeMemoryRatio := 7/10
    maxMemoryBytes := 100 }

/-- The `DEFAULT_OPTIONS` constant of the source file. -/
def defaultOptions : SnapshotterOptions :=
  { eventLoopSnapshotIntervalSecs := 1/2
    memorySnapshotIntervalSecs := 1
    snapshotHistorySecs := 60
    maxBlockedRatio := 1/10
    minFreeMemoryRatio := 7/10
    maxMemoryMbytes := none }

/-- A baseline-shaped event-loop snapshot at time 0, used as concrete input. -/
def seedSnap : EventLoopSnapshot :=
  { createdAt := 0, isOverloaded := false, exceededMillis := 0 }

/-- A state whose event-loop history holds a single 70-second-old sample
(relative to the tick time 70000 used in witnesses). -/
def staleEventLoopState : SnapshotterState :=
  { cpuSnapshots := []
    eventLoopSnapshots := [seedSnap]
    memorySnapshots := [] }

/-- A concrete state with one entry in each history, for instantiating the
sampling-window properties. -/
def demoState : SnapshotterState :=
  { cpuSnapshots := [{ createdAt := 0, isOverloaded := false }]
    eventLoopSnapshots := [seedSnap]
    memorySnapshots := [{ createdAt := 0, isOverloaded := false,
                          mainProcessBytes := 10, childProcessesBytes := 0 }] }

/-- The spec invariant: within a history the `createdAt` values are
non-decreasing. -/
def createdSorted {α : Type} (created : α → ℚ) (l : List α) : Prop :=
  l.Pairwise (fun a b => created a ≤ created b)

/-- No retained entry is older than `historyMillis` relative to the newest
(last) entry of the history. -/
def withinHistoryOfNewest {α : Type} (created : α → ℚ) (historyMillis : ℚ)
    (l : List α) : Prop :=
  ∀ t, l.getLast? = some t → ∀ s ∈ l, created t - created s ≤ historyMillis

/-- Configuration exhibiting the memory-overload threshold: a free-memory
floor of 0.3 and a 100-byte ceiling (other fields as in the defaults). -/
def ceConfig : SnapshotterConfig :=
  { eventLoopSnapshotIntervalMillis := 500
    memorySnapshotIntervalMillis := 1000
    snapshotHistoryMillis := 60000
    maxBlockedMillis := 50
    minFreeMemoryRatio := 3/10
    maxMemoryBytes := 100 }

/-- A probe reading of 50 % usage against `ceConfig`'s 100-byte ceiling. -/
def ceMemInfo : MemInfo :=
  { mainProcessBytes := 50, childProcessesBytes := 0 }

/-- Modelled from the spec: the `AutoscaledPool` scheduler state.  The
implementation of `AutoscaledPool` is absent from this repository snapshot
(only its type declarations and callers are present), so the state
`{ desiredConcurrency, currentlyRunningCount, isPaused, isStopped }` follows
the design document's data model (`minConcurrency`/`maxConcurrency` are
configuration, carried as parameters of the step function). -/
structure PoolState where
  desiredConcurrency : ℤ
  currentlyRunningCount : ℤ
  isPaused : Bool
  isStopped : Bool
deriving DecidableEq, Repr

/-- Modelled from the spec: at pool construction the starting concurrency
equals `minConcurrency` and nothing runs. -/
def initialPoolState (minConcurrency : ℤ) : PoolState :=
  { desiredConcurrency := minConcurrency
    currentlyRunningCount := 0
    isPaused := false
    isStopped := false }

/-- Modelled from the spec: the events that mutate pool state after
initialization — an autoscaling evaluation tick (scale up when the system is
idle, scale down otherwise; the exact step size is tunable policy, so it is
an arbitrary natural number), a task launch, a task completion, and
pause/resume. -/
inductive PoolEvent : Type
  | autoscaleTick (systemIdle : Bool) (step : ℕ)
  | launchTask
  | completeTask
  | pause
  | resume
deriving DecidableEq, Repr

/-- Modelled from the spec: one state transition of the pool.  A scale-up
adds its step and is capped at `maxConcurrency`; a scale-down subtracts its
step and is floored at `minConcurrency`; launch/complete only touch
`currentlyRunningCount`; pause/resume only touch `isPaused`. -/
def poolStep (minConcurrency maxConcurrency : ℤ) (s : PoolState)
    (e : PoolEvent) : PoolState :=
  match e with
  | PoolEvent.autoscaleTick systemIdle step =>
    if systemIdle then
      { s with desiredConcurrency :=
          (min maxConcurrency (s.desiredConcurrency + (step : ℤ))) }
    else
      { s with desiredConcurrency :=
          (max minConcurrency (s.desiredConcurrency - (step : ℤ))) }
  | PoolEvent.launchTask =>
    { s with currentlyRunningCount := s.currentlyRunningCount + 1 }
  | PoolEvent.completeTask =>
    { s with currentlyRunningCount := s.currentlyRunningCount - 1 }
  | PoolEvent.pause => { s with isPaused := true }
  | PoolEvent.resume => { s with isPaused := false }

/-- Modelled from the spec: the pool state reached from initialization by an
arbitrary interleaving of autoscaling ticks and task launches/completions. -/
def runPool (minConcurrency maxConcurrency : ℤ) (events : List PoolEvent) :
    PoolState :=
  events.foldl (poolStep minConcurrency maxConcurrency)
    (initialPoolState minConcurrency)

/-! ### Helper lemmas -/

/-- `dropWhile` only removes a prefix, so it preserves a last element that
fails the predicate. -/
lemma getLast?_dropWhile_of_neg {α : Type} (p : α → Bool) (l : List α) (a : α)
    (h : l.getLast? = some a) (ha : p a = false) :
    (l.dropWhile p).getLast? = some a := by
  induction l with
  | nil => simp at h
  | cons x xs ih =>
    rw [List.dropWhile_cons]
    by_cases hx : p x = true
    · simp only [hx, if_true]
      cases xs with
      | nil =>
        simp only [List.getLast?_singleton, Option.some.injEq] at h
        rw [h] at hx
        rw [hx] at ha
        cases ha
      | cons y ys =>
        rw [List.getLast?_cons_cons] at h
        exact ih h
    · simp only [Bool.not_eq_true] at hx
      simp only [hx, Bool.false_eq_true, if_false]
      exact h

/-- A tick on an empty event-loop history records nothing: the pruning is a
no-op and the read of the last entry fails (caught by the `try`/`catch`). -/
lemma snapshotEventLoop_empty (cfg : SnapshotterConfig) (st : SnapshotterState)
    (now : ℚ) (hst : st.eventLoopSnapshots = []) :
    (snapshotEventLoop cfg st now).1.eventLoopSnapshots = [] := by
  simp [snapshotEventLoop, pruneSnapshots, eventLoopTickOn, hst]

/-- Once the event-loop history is empty, any sequence of further ticks leaves
it empty. -/
lemma runEventLoopTicks_empty (cfg : SnapshotterConfig) (times : List ℚ) :
    ∀ st : SnapshotterState, st.eventLoopSnapshots = [] →
      (runEventLoopTicks cfg st times).eventLoopSnapshots = [] := by
  induction times with
  | nil => intro st hst; exact hst
  | cons t ts ih =>
    intro st hst
    show (runEventLoopTicks cfg ((snapshotEventLoop cfg st t).1) ts).eventLoopSnapshots = []
    exact ih _ (snapshotEventLoop_empty cfg st t hst)

/-- When the last entry survives pruning, the tick appends exactly one
snapshot computed from it. -/
lemma eventLoopTickOn_getLast (cfg : SnapshotterConfig) (now : ℚ)
    (pruned : List EventLoopSnapshot) (last : EventLoopSnapshot)
    (h : pruned.getLast? = some last) :
    eventLoopTickOn cfg now pruned
      = pruned
        ++ [{ createdAt := now,
              isOverloaded :=
                decide (now - last.createdAt - cfg.eventLoopSnapshotIntervalMillis
                  > cfg.maxBlockedMillis),
              exceededMillis :=
                max (now - last.createdAt - cfg.eventLoopSnapshotIntervalMillis
                  - cfg.maxBlockedMillis) 0 }] := by
  rw [eventLoopTickOn, h]

/-- On a sorted history every entry surviving `_pruneSnapshots` is within
`historyMillis` of `now`: pruning stops at the first young entry, and
sortedness makes every later entry at least as young. -/
lemma mem_pruneSnapshots_young {α : Type} (created : α → ℚ) (historyMillis now : ℚ)
    (l : List α) (hsorted : createdSorted created l) :
    ∀ s ∈ pruneSnapshots created historyMillis now l,
      now - created s ≤ historyMillis := by
  induction l with
  | nil => intro s hmem; cases hmem
  | cons x xs ih =>
    rw [createdSorted, List.pairwise_cons] at hsorted
    rw [pruneSnapshots, List.dropWhile_cons]
    by_cases hx : now - created x > historyMillis
    · rw [if_pos (decide_eq_true hx)]
      exact ih hsorted.2
    · rw [if_neg (by rw [decide_eq_false hx]; exact Bool.false_ne_true)]
      intro s hmem
      rcases List.mem_cons.mp hmem with rfl | hmem
      · exact not_lt.mp hx
      · have h1 : created x ≤ created s := hsorted.1 s hmem
        have h2 : now - created x ≤ historyMillis := not_lt.mp hx
        linarith

/-- Appending a fresh sample at time `now` to entries within `historyMillis`
of `now` yields a history whose entries are all within `historyMillis` of its
newest entry. -/
lemma withinHistory_append {α : Type} (created : α → ℚ) (historyMillis now : ℚ)
    (l : List α) (snap : α) (hsnap : created snap = now) (hH : 0 ≤ historyMillis)
    (hyoung : ∀ s ∈ l, now - created s ≤ historyMillis) :
    withinHistoryOfNewest created historyMillis (l ++ [snap]) := by
  intro t ht s hs
  rw [List.getLast?_concat] at ht
  injection ht with ht
  subst ht
  rcases List.mem_append.mp hs with hs | hs
  · rw [hsnap]
    exact hyoung s hs
  · rw [List.mem_singleton] at hs
    subst hs
    rw [sub_self]
    exact hH

/-- When failure of the predicate propagates forward along the list,
`takeWhile` (break at the first failure) agrees with `filter`. -/
lemma takeWhile_eq_filter_of_pairwise {α : Type} (p : α → Bool) (l : List α)
    (h : l.Pairwise fun a b => p b = true → p a = true) :
    l.takeWhile p = l.filter p := by
  induction l with
  | nil => rfl
  | cons x xs ih =>
    rw [List.pairwise_cons] at h
    by_cases hx : p x = true
    · rw [List.takeWhile_cons, if_pos hx, List.filter_cons, if_pos hx, ih h.2]
    · have hall : ∀ b ∈ xs, ¬p b = true := fun b hb hpb => hx (h.1 b hb hpb)
      rw [List.takeWhile_cons, if_neg hx, List.filter_cons, if_neg hx, eq_comm,
        List.filter_eq_nil_iff]
      exact hall

/-- On a sorted history, the backwards walk of `_getSample` collects exactly
the entries within `d` of the newest entry. -/
lemma getSample_eq_filter {α : Type} (created : α → ℚ) (l : List α) (d : ℚ)
    (last : α) (hlast : l.getLast? = some last) (hd : d ≠ 0)
    (hsorted : createdSorted created l) :
    getSample created l (some d)
      = l.filter (fun s => decide (created last - created s ≤ d)) := by
  rw [getSample, if_neg hd, hlast]
  show (List.takeWhile (fun s => decide (created last - created s ≤ d)) l.reverse).reverse
    = List.filter (fun s => decide (created last - created s ≤ d)) l
  have hpair : l.reverse.Pairwise
      (fun a b => (decide (created last - created b ≤ d)) = true
        → (decide (created last - created a ≤ d)) = true) := by
    rw [List.pairwise_reverse]
    refine List.Pairwise.imp ?_ hsorted
    intro a b hab hpa
    rw [decide_eq_true_eq] at hpa ⊢
    have hba : created last - created b ≤ created last - created a := by linarith
    exact le_trans hba hpa
  rw [takeWhile_eq_filter_of_pairwise _ _ hpair, List.filter_reverse,
    List.reverse_reverse]

/-- `_getSample` always returns a suffix of the history. -/
lemma getSample_suffix {α : Type} (created : α → ℚ) (l : List α) (d : Option ℚ) :
    (getSample created l d) <:+ l := by
  match d with
  | none => exact List.suffix_refl l
  | some d =>
    rw [getSample]
    by_cases hd : d = 0
    · rw [if_pos hd]
    · rw [if_neg hd]
      rcases hgl : l.getLast? with _ | last
      · exact List.nil_suffix
      · show (List.takeWhile (fun s => decide (created last - created s ≤ d))
            l.reverse).reverse <:+ l
        have h1 : (l.reverse.takeWhile
            (fun s => decide (created last - created s ≤ d))) <+: l.reverse :=
          List.takeWhile_prefix _
        have h2 := List.reverse_suffix.mpr h1
        rwa [List.reverse_reverse] at h2

/-! ### Claim theorems -/

/-- C5: if the memory probe (`getMemoryInfo`) throws during a memory sampling
tick, the exception does not propagate out of the tick (the tick returns
normally), the memory history — indeed the whole state — is left exactly as it
was before the tick (no sample recorded, nothing pruned), and the interval
callback is still invoked, so the sampling timer keeps running. -/
theorem snapshotMemory_error_isolated (cfg : SnapshotterConfig)
    (st : SnapshotterState) (now : ℚ) :
    (snapshotMemory cfg st now (Except.error ())).1 = st ∧
    (snapshotMemory cfg st now (Except.error ())).1.memorySnapshots
      = st.memorySnapshots ∧
    (snapshotMemory cfg st now (Except.error ())).2 = true :=
  ⟨rfl, rfl, rfl⟩

/-- C7: the read accessors `getMemorySample`, `getEventLoopSample` and
`getCpuSample` never mutate the `Snapshotter` state: for every duration
argument the returned state — in particular each of the three histories — is
exactly the state before the call.  (In the source the methods build a fresh
`sample` array and never assign to `this`; the embedding makes the returned
state explicit so the frame condition is checkable.) -/
theorem getSample_accessors_readonly (st : SnapshotterState)
    (d : Option ℚ) :
    (getMemorySample st d).1 = st ∧
    (getEventLoopSample st d).1 = st ∧
    (getCpuSample st d).1 = st ∧
    (getMemorySample st d).1.cpuSnapshots = st.cpuSnapshots ∧
    (getMemorySample st d).1.eventLoopSnapshots = st.eventLoopSnapshots ∧
    (getMemorySample st d).1.memorySnapshots = st.memorySnapshots :=
  ⟨rfl, rfl, rfl, rfl, rfl, rfl⟩

/-- C9: every event-loop snapshot ever present in the history — the baseline
sample pushed by `start()` as well as every sample appended by an event-loop
sampling tick — is flagged `isOverloaded` exactly when its recorded
`exceededMillis` is strictly positive: assuming the property for the current
history, it holds after seeding and after any tick. -/
theorem eventLoop_flag_iff_exceeded (cfg : SnapshotterConfig)
    (st : SnapshotterState) (now : ℚ)
    (h : ∀ s ∈ st.eventLoopSnapshots, s.isOverloaded = true ↔ 0 < s.exceededMillis) :
    (∀ s ∈ (startSeed st now).eventLoopSnapshots,
      s.isOverloaded = true ↔ 0 < s.exceededMillis) ∧
    (∀ s ∈ (snapshotEventLoop cfg st now).1.eventLoopSnapshots,
      s.isOverloaded = true ↔ 0 < s.exceededMillis) := by
  constructor
  · intro s hs
    simp only [startSeed, List.mem_append, List.mem_singleton] at hs
    rcases hs with hs | hs
    · exact h s hs
    · subst hs
      simp
  · intro s hs
    simp only [snapshotEventLoop] at hs
    have hmem_pruned :
        ∀ t ∈ pruneSnapshots EventLoopSnapshot.createdAt cfg.snapshotHistoryMillis
            now st.eventLoopSnapshots,
          t.isOverloaded = true ↔ 0 < t.exceededMillis := by
      intro t ht
      exact h t ((List.dropWhile_sublist _).subset ht)
    rw [eventLoopTickOn] at hs
    rcases hgl : (pruneSnapshots EventLoopSnapshot.createdAt cfg.snapshotHistoryMillis
        now st.eventLoopSnapshots).getLast? with _ | last
    · rw [hgl] at hs
      exact hmem_pruned s hs
    · rw [hgl] at hs
      simp only [List.mem_append, List.mem_singleton] at hs
      rcases hs with hs | hs
      · exact hmem_pruned s hs
      · subst hs
        simp only [decide_eq_true_eq, lt_max_iff, lt_self_iff_false, or_false,
          sub_pos]

/-- C9 witness: the property instantiated on the empty initial history at a
concrete time and configuration. -/
theorem eventLoop_flag_iff_exceeded_witness :
    (∀ s ∈ initialSnapshotterState.eventLoopSnapshots,
      s.isOverloaded = true ↔ 0 < s.exceededMillis) ∧
    ((∀ s ∈ (startSeed initialSnapshotterState 0).eventLoopSnapshots,
      s.isOverloaded = true ↔ 0 < s.exceededMillis) ∧
    (∀ s ∈ (snapshotEventLoop demoConfig initialSnapshotterState 0).1.eventLoopSnapshots,
      s.isOverloaded = true ↔ 0 < s.exceededMillis)) :=
  ⟨(by intro s hs; cases hs),
   (eventLoop_flag_iff_exceeded demoConfig initialSnapshotterState 0
     (by intro s hs; cases hs))⟩

/-- C10: if at an event-loop sampling tick at time `now` every retained
event-loop snapshot is older than `snapshotHistoryMillis` relative to `now`,
the tick prunes the history to empty and appends no snapshot (the read of the
last entry fails and the exception is caught), and every subsequent event-loop
tick on the now-empty history also appends nothing — the event-loop history
stays empty permanently. -/
theorem eventLoop_blocked_gap_starves_history (cfg : SnapshotterConfig)
    (st : SnapshotterState) (now : ℚ) (times : List ℚ)
    (h : ∀ s ∈ st.eventLoopSnapshots,
      now - s.createdAt > cfg.snapshotHistoryMillis) :
    (snapshotEventLoop cfg st now).1.eventLoopSnapshots = [] ∧
    (runEventLoopTicks cfg (snapshotEventLoop cfg st now).1 times).eventLoopSnapshots
      = [] := by
  have hpruned : pruneSnapshots EventLoopSnapshot.createdAt cfg.snapshotHistoryMillis
      now st.eventLoopSnapshots = [] := by
    rw [pruneSnapshots, List.dropWhile_eq_nil_iff]
    intro x hx
    exact decide_eq_true (h x hx)
  have h1 : (snapshotEventLoop cfg st now).1.eventLoopSnapshots = [] := by
    simp [snapshotEventLoop, hpruned, eventLoopTickOn]
  exact ⟨h1, runEventLoopTicks_empty cfg times _ h1⟩

/-- C10 witness: a single 70-second-old snapshot with a 60-second history
window is pruned away at the tick, and two further ticks record nothing. -/
theorem eventLoop_blocked_gap_starves_history_witness :
    (∀ s ∈ staleEventLoopState.eventLoopSnapshots,
      (70000 : ℚ) - s.createdAt > demoConfig.snapshotHistoryMillis) ∧
    ((snapshotEventLoop demoConfig staleEventLoopState 70000).1.eventLoopSnapshots
      = [] ∧
    (runEventLoopTicks demoConfig
        (snapshotEventLoop demoConfig staleEventLoopState 70000).1
        [70500, 71000]).eventLoopSnapshots = []) :=
  ⟨(by
      intro s hs
      simp only [staleEventLoopState, List.mem_singleton] at hs
      subst hs
      norm_num [demoConfig, seedSnap]),
   (eventLoop_blocked_gap_starves_history demoConfig staleEventLoopState 70000
     [70500, 71000]
     (by
       intro s hs
       simp only [staleEventLoopState, List.mem_singleton] at hs
       subst hs
       norm_num [demoConfig, seedSnap]))⟩

/-- C2: at an event-loop sampling tick at time `now` with a non-empty history
whose last entry was created at `lastSnap.createdAt` (and survives pruning),
the recorded snapshot satisfies
`delta = now - lastSampleTime - eventLoopSnapshotIntervalMillis`,
`isOverloaded = (delta > maxBlockedMillis)` with
`maxBlockedMillis = eventLoopSnapshotIntervalMillis × maxBlockedRatio`
(as derived by the constructor), and
`exceededMillis = max (delta - maxBlockedMillis) 0`. -/
theorem snapshotEventLoop_delta_formula (o : SnapshotterOptions) (measured : ℚ)
    (st : SnapshotterState) (now : ℚ) (lastSnap : EventLoopSnapshot)
    (hlast : st.eventLoopSnapshots.getLast? = some lastSnap)
    (hyoung : now - lastSnap.createdAt
      ≤ (Snapshotter.ofOptions o measured).snapshotHistoryMillis) :
    ((snapshotEventLoop (Snapshotter.ofOptions o measured) st now).1.eventLoopSnapshots).getLast?
      = some
        { createdAt := now,
          isOverloaded :=
            decide (now - lastSnap.createdAt
                - (Snapshotter.ofOptions o measured).eventLoopSnapshotIntervalMillis
              > (Snapshotter.ofOptions o measured).eventLoopSnapshotIntervalMillis
                  * o.maxBlockedRatio),
          exceededMillis :=
            max (now - lastSnap.createdAt
              - (Snapshotter.ofOptions o measured).eventLoopSnapshotIntervalMillis
              - (Snapshotter.ofOptions o measured).eventLoopSnapshotIntervalMillis
                  * o.maxBlockedRatio) 0 } := by
  have hmb : (Snapshotter.ofOptions o measured).maxBlockedMillis
      = (Snapshotter.ofOptions o measured).eventLoopSnapshotIntervalMillis
          * o.maxBlockedRatio := by
    show 1000 * o.eventLoopSnapshotIntervalSecs * o.maxBlockedRatio
      = o.eventLoopSnapshotIntervalSecs * 1000 * o.maxBlockedRatio
    ring
  have hpl : (pruneSnapshots EventLoopSnapshot.createdAt
      (Snapshotter.ofOptions o measured).snapshotHistoryMillis now
      st.eventLoopSnapshots).getLast? = some lastSnap :=
    getLast?_dropWhile_of_neg _ _ _ hlast (decide_eq_false (not_lt.mpr hyoung))
  rw [show (snapshotEventLoop (Snapshotter.ofOptions o measured) st now).1.eventLoopSnapshots
      = eventLoopTickOn (Snapshotter.ofOptions o measured) now
          (pruneSnapshots EventLoopSnapshot.createdAt
            (Snapshotter.ofOptions o measured).snapshotHistoryMillis now
            st.eventLoopSnapshots) from rfl,
    eventLoopTickOn_getLast _ _ _ _ hpl, List.getLast?_concat, hmb]

/-- C2 witness: one 600 ms tick after a baseline at time 0 with the default
options (interval 500 ms, `maxBlockedRatio` 0.1): delta is 100 ms, overloaded,
exceeding by 50 ms. -/
theorem snapshotEventLoop_delta_formula_witness :
    staleEventLoopState.eventLoopSnapshots.getLast? = some seedSnap ∧
    (600 : ℚ) - seedSnap.createdAt
      ≤ (Snapshotter.ofOptions defaultOptions 100).snapshotHistoryMillis ∧
    ((snapshotEventLoop (Snapshotter.ofOptions defaultOptions 100)
        staleEventLoopState 600).1.eventLoopSnapshots).getLast?
      = some
        { createdAt := 600,
          isOverloaded :=
            decide ((600 : ℚ) - seedSnap.createdAt
                - (Snapshotter.ofOptions defaultOptions 100).eventLoopSnapshotIntervalMillis
              > (Snapshotter.ofOptions defaultOptions 100).eventLoopSnapshotIntervalMillis
                  * defaultOptions.maxBlockedRatio),
          exceededMillis :=
            max ((600 : ℚ) - seedSnap.createdAt
              - (Snapshotter.ofOptions defaultOptions 100).eventLoopSnapshotIntervalMillis
              - (Snapshotter.ofOptions defaultOptions 100).eventLoopSnapshotIntervalMillis
                  * defaultOptions.maxBlockedRatio) 0 } :=
  ⟨rfl,
   (by norm_num [seedSnap, Snapshotter.ofOptions, defaultOptions]),
   (snapshotEventLoop_delta_formula defaultOptions 100 staleEventLoopState 600
     seedSnap rfl
     (by norm_num [seedSnap, Snapshotter.ofOptions, defaultOptions]))⟩

/-- C4: after any sampling operation (`_snapshotMemory` with a successful
probe, `_snapshotEventLoop`, `_snapshotCpu`) on a history whose `createdAt`
values are non-decreasing (so the appended sample, timestamped `now` resp.
the CPU event's time, keeps the order), no retained entry of that signal's
history is older than `snapshotHistoryMillis` relative to that history's
newest entry. -/
theorem histories_pruned_after_sample (cfg : SnapshotterConfig)
    (st : SnapshotterState) (now : ℚ) (mi : MemInfo) (evt : CpuInfoEvent)
    (hH : 0 ≤ cfg.snapshotHistoryMillis)
    (hm : createdSorted MemorySnapshot.createdAt st.memorySnapshots)
    (he : createdSorted EventLoopSnapshot.createdAt st.eventLoopSnapshots)
    (hc : createdSorted CpuSnapshot.createdAt st.cpuSnapshots) :
    withinHistoryOfNewest MemorySnapshot.createdAt cfg.snapshotHistoryMillis
      (snapshotMemory cfg st now (Except.ok mi)).1.memorySnapshots ∧
    withinHistoryOfNewest EventLoopSnapshot.createdAt cfg.snapshotHistoryMillis
      (snapshotEventLoop cfg st now).1.eventLoopSnapshots ∧
    withinHistoryOfNewest CpuSnapshot.createdAt cfg.snapshotHistoryMillis
      (snapshotCpu cfg st evt).cpuSnapshots := by
  refine ⟨?_, ?_, ?_⟩
  · exact withinHistory_append _ _ now _ _ rfl hH
      (mem_pruneSnapshots_young _ _ now _ hm)
  · show withinHistoryOfNewest EventLoopSnapshot.createdAt cfg.snapshotHistoryMillis
      (eventLoopTickOn cfg now (pruneSnapshots EventLoopSnapshot.createdAt
        cfg.snapshotHistoryMillis now st.eventLoopSnapshots))
    rcases hgl : (pruneSnapshots EventLoopSnapshot.createdAt
        cfg.snapshotHistoryMillis now st.eventLoopSnapshots).getLast? with _ | last
    · have hid : eventLoopTickOn cfg now (pruneSnapshots EventLoopSnapshot.createdAt
          cfg.snapshotHistoryMillis now st.eventLoopSnapshots)
          = pruneSnapshots EventLoopSnapshot.createdAt cfg.snapshotHistoryMillis now
              st.eventLoopSnapshots := by
        rw [eventLoopTickOn, hgl]
      rw [hid]
      intro t ht
      rw [hgl] at ht
      cases ht
    · rw [eventLoopTickOn_getLast _ _ _ _ hgl]
      exact withinHistory_append _ _ now _ _ rfl hH
        (mem_pruneSnapshots_young _ _ now _ he)
  · exact withinHistory_append _ _ evt.createdAt _ _ rfl hH
      (mem_pruneSnapshots_young _ _ evt.createdAt _ hc)

/-- C4 witness: concrete sorted histories (memory and CPU empty, one
event-loop baseline) sampled at time 1000 resp. a CPU event at time 900. -/
theorem histories_pruned_after_sample_witness :
    (0 : ℚ) ≤ demoConfig.snapshotHistoryMillis ∧
    createdSorted MemorySnapshot.createdAt staleEventLoopState.memorySnapshots ∧
    createdSorted EventLoopSnapshot.createdAt staleEventLoopState.eventLoopSnapshots ∧
    createdSorted CpuSnapshot.createdAt staleEventLoopState.cpuSnapshots ∧
    (withinHistoryOfNewest MemorySnapshot.createdAt demoConfig.snapshotHistoryMillis
      (snapshotMemory demoConfig staleEventLoopState 1000
        (Except.ok { mainProcessBytes := 50, childProcessesBytes := 10 })).1.memorySnapshots ∧
    withinHistoryOfNewest EventLoopSnapshot.createdAt demoConfig.snapshotHistoryMillis
      (snapshotEventLoop demoConfig staleEventLoopState 1000).1.eventLoopSnapshots ∧
    withinHistoryOfNewest CpuSnapshot.createdAt demoConfig.snapshotHistoryMillis
      (snapshotCpu demoConfig staleEventLoopState
        { createdAt := 900, isCpuOverloaded := false }).cpuSnapshots) :=
  ⟨(by norm_num [demoConfig]),
   (by rw [createdSorted]; exact List.Pairwise.nil),
   (by rw [createdSorted, staleEventLoopState]; exact List.pairwise_singleton ..),
   (by rw [createdSorted]; exact List.Pairwise.nil),
   (histories_pruned_after_sample demoConfig staleEventLoopState 1000
     { mainProcessBytes := 50, childProcessesBytes := 10 }
     { createdAt := 900, isCpuOverloaded := false }
     (by norm_num [demoConfig])
     (by rw [createdSorted]; exact List.Pairwise.nil)
     (by rw [createdSorted, staleEventLoopState]; exact List.pairwise_singleton ..)
     (by rw [createdSorted]; exact List.Pairwise.nil))⟩

/-- A chain relates the final two elements of a list. -/
lemma chain'_last_pair {α : Type} (R : α → α → Prop) (xs : List α) (a b : α)
    (h : List.Chain' R (xs ++ [a, b])) : R a b := by
  induction xs with
  | nil => exact (List.chain'_cons.mp h).1
  | cons x xs ih =>
    rw [List.cons_append] at h
    exact ih h.tail

/-- C6: when consecutive event-loop entries are at least
`eventLoopSnapshotIntervalMillis` apart and `0 < d <
eventLoopSnapshotIntervalMillis`, `getEventLoopSample(d)` returns at most one
entry, namely the most recent one (and the empty list on an empty history). -/
theorem getEventLoopSample_small_duration (cfg : SnapshotterConfig)
    (st : SnapshotterState) (d : ℚ)
    (hchain : List.Chain'
      (fun a b => cfg.eventLoopSnapshotIntervalMillis ≤ b.createdAt - a.createdAt)
      st.eventLoopSnapshots)
    (hd0 : 0 < d) (hdlt : d < cfg.eventLoopSnapshotIntervalMillis) :
    (getEventLoopSample st (some d)).2
      = st.eventLoopSnapshots.getLast?.toList := by
  show getSample EventLoopSnapshot.createdAt st.eventLoopSnapshots (some d)
    = st.eventLoopSnapshots.getLast?.toList
  rw [getSample, if_neg (ne_of_gt hd0)]
  rcases hrev : st.eventLoopSnapshots.reverse with _ | ⟨hd, tl⟩
  · have hnil : st.eventLoopSnapshots = [] := by
      have := congrArg List.reverse hrev
      rwa [List.reverse_reverse, List.reverse_nil] at this
    rw [hnil]
    rfl
  · have hlast : st.eventLoopSnapshots.getLast? = some hd := by
      rw [← List.head?_reverse, hrev]
      rfl
    rw [hlast]
    have hphd : (decide (hd.createdAt - hd.createdAt ≤ d)) = true := by
      rw [sub_self]
      exact decide_eq_true (le_of_lt hd0)
    show (List.takeWhile (fun s => decide (hd.createdAt - s.createdAt ≤ d))
      (hd :: tl)).reverse = [hd]
    cases tl with
    | nil =>
      rw [List.takeWhile_cons, hphd, if_pos rfl, List.takeWhile_nil, List.reverse_cons,
        List.reverse_nil, List.nil_append]
    | cons y tl2 =>
      have hl : st.eventLoopSnapshots = tl2.reverse ++ [y, hd] := by
        have h2 := congrArg List.reverse hrev
        rw [List.reverse_reverse] at h2
        rw [h2]
        simp [List.reverse_cons, List.append_assoc]
      have hgap : cfg.eventLoopSnapshotIntervalMillis ≤ hd.createdAt - y.createdAt := by
        rw [hl] at hchain
        exact chain'_last_pair _ tl2.reverse y hd hchain
      have hpy : (decide (hd.createdAt - y.createdAt ≤ d)) = false := by
        rw [decide_eq_false_iff_not, not_le]
        exact lt_of_lt_of_le hdlt hgap
      rw [List.takeWhile_cons, hphd, if_pos rfl, List.takeWhile_cons, hpy]
      simp only [Bool.false_eq_true, if_false, List.reverse_cons, List.reverse_nil,
        List.nil_append]

/-- C6 witness: a two-entry history 500 ms apart queried with `d = 100` returns
only the newest entry. -/
theorem getEventLoopSample_small_duration_witness :
    List.Chain'
      (fun a b => demoConfig.eventLoopSnapshotIntervalMillis ≤ b.createdAt - a.createdAt)
      (SnapshotterState.mk [] [seedSnap, EventLoopSnapshot.mk 500 false 0] []).eventLoopSnapshots ∧
    (0 : ℚ) < 100 ∧ (100 : ℚ) < demoConfig.eventLoopSnapshotIntervalMillis ∧
    (getEventLoopSample
        (SnapshotterState.mk [] [seedSnap, EventLoopSnapshot.mk 500 false 0] [])
        (some 100)).2
      = (SnapshotterState.mk [] [seedSnap, EventLoopSnapshot.mk 500 false 0]
          []).eventLoopSnapshots.getLast?.toList :=
  ⟨(by
      constructor
      · norm_num [demoConfig, seedSnap]
      · exact List.chain'_singleton _),
   (by norm_num),
   (by norm_num [demoConfig]),
   (getEventLoopSample_small_duration demoConfig
     (SnapshotterState.mk [] [seedSnap, EventLoopSnapshot.mk 500 false 0] []) 100
     (by
       constructor
       · norm_num [demoConfig, seedSnap]
       · exact List.chain'_singleton _)
     (by norm_num)
     (by norm_num [demoConfig]))⟩

/-- C3: for every (sorted) signal history and duration `d`: an absent or zero
duration returns the entire retained history; an empty history yields the
empty sequence (the accessors are total, never an error); and for `d > 0` the
result is exactly the entries whose `createdAt` lies within `d` of the most
recent entry's `createdAt`, returned as a suffix of the history. -/
theorem getSample_window_behaviour (st : SnapshotterState) (d : ℚ) (hd : 0 < d)
    (hm : createdSorted MemorySnapshot.createdAt st.memorySnapshots)
    (he : createdSorted EventLoopSnapshot.createdAt st.eventLoopSnapshots)
    (hc : createdSorted CpuSnapshot.createdAt st.cpuSnapshots) :
    ((getMemorySample st none).2 = st.memorySnapshots ∧
     (getEventLoopSample st none).2 = st.eventLoopSnapshots ∧
     (getCpuSample st none).2 = st.cpuSnapshots) ∧
    ((getMemorySample st (some 0)).2 = st.memorySnapshots ∧
     (getEventLoopSample st (some 0)).2 = st.eventLoopSnapshots ∧
     (getCpuSample st (some 0)).2 = st.cpuSnapshots) ∧
    ((st.memorySnapshots = [] → (getMemorySample st (some d)).2 = []) ∧
     (st.eventLoopSnapshots = [] → (getEventLoopSample st (some d)).2 = []) ∧
     (st.cpuSnapshots = [] → (getCpuSample st (some d)).2 = [])) ∧
    ((∀ last, st.memorySnapshots.getLast? = some last →
      (getMemorySample st (some d)).2
        = st.memorySnapshots.filter
            (fun s => decide (last.createdAt - s.createdAt ≤ d))) ∧
     (∀ last, st.eventLoopSnapshots.getLast? = some last →
      (getEventLoopSample st (some d)).2
        = st.eventLoopSnapshots.filter
            (fun s => decide (last.createdAt - s.createdAt ≤ d))) ∧
     (∀ last, st.cpuSnapshots.getLast? = some last →
      (getCpuSample st (some d)).2
        = st.cpuSnapshots.filter
            (fun s => decide (last.createdAt - s.createdAt ≤ d)))) ∧
    ((getMemorySample st (some d)).2 <:+ st.memorySnapshots ∧
     (getEventLoopSample st (some d)).2 <:+ st.eventLoopSnapshots ∧
     (getCpuSample st (some d)).2 <:+ st.cpuSnapshots) := by
  have hdne : d ≠ 0 := ne_of_gt hd
  refine ⟨⟨rfl, rfl, rfl⟩, ⟨?_, ?_, ?_⟩, ⟨?_, ?_, ?_⟩, ⟨?_, ?_, ?_⟩, ?_, ?_, ?_⟩
  · show getSample MemorySnapshot.createdAt st.memorySnapshots (some 0)
      = st.memorySnapshots
    rw [getSample, if_pos rfl]
  · show getSample EventLoopSnapshot.createdAt st.eventLoopSnapshots (some 0)
      = st.eventLoopSnapshots
    rw [getSample, if_pos rfl]
  · show getSample CpuSnapshot.createdAt st.cpuSnapshots (some 0)
      = st.cpuSnapshots
    rw [getSample, if_pos rfl]
  · intro hnil
    show getSample MemorySnapshot.createdAt st.memorySnapshots (some d) = []
    rw [hnil, getSample, if_neg hdne]
    rfl
  · intro hnil
    show getSample EventLoopSnapshot.createdAt st.eventLoopSnapshots (some d) = []
    rw [hnil, getSample, if_neg hdne]
    rfl
  · intro hnil
    show getSample CpuSnapshot.createdAt st.cpuSnapshots (some d) = []
    rw [hnil, getSample, if_neg hdne]
    rfl
  · intro last hlast
    exact getSample_eq_filter MemorySnapshot.createdAt _ d last hlast hdne hm
  · intro last hlast
    exact getSample_eq_filter EventLoopSnapshot.createdAt _ d last hlast hdne he
  · intro last hlast
    exact getSample_eq_filter CpuSnapshot.createdAt _ d last hlast hdne hc
  · exact getSample_suffix MemorySnapshot.createdAt st.memorySnapshots (some d)
  · exact getSample_suffix EventLoopSnapshot.createdAt st.eventLoopSnapshots (some d)
  · exact getSample_suffix CpuSnapshot.createdAt st.cpuSnapshots (some d)

/-- C3 witness: the window behaviour instantiated on a one-entry-per-history
state with `d = 100`. -/
theorem getSample_window_behaviour_witness :
    (0 : ℚ) < 100 ∧
    createdSorted MemorySnapshot.createdAt demoState.memorySnapshots ∧
    createdSorted EventLoopSnapshot.createdAt demoState.eventLoopSnapshots ∧
    createdSorted CpuSnapshot.createdAt demoState.cpuSnapshots ∧
    (((getMemorySample demoState none).2 = demoState.memorySnapshots ∧
      (getEventLoopSample demoState none).2 = demoState.eventLoopSnapshots ∧
      (getCpuSample demoState none).2 = demoState.cpuSnapshots) ∧
     ((getMemorySample demoState (some 0)).2 = demoState.memorySnapshots ∧
      (getEventLoopSample demoState (some 0)).2 = demoState.eventLoopSnapshots ∧
      (getCpuSample demoState (some 0)).2 = demoState.cpuSnapshots) ∧
     ((demoState.memorySnapshots = [] → (getMemorySample demoState (some 100)).2 = []) ∧
      (demoState.eventLoopSnapshots = [] →
        (getEventLoopSample demoState (some 100)).2 = []) ∧
      (demoState.cpuSnapshots = [] → (getCpuSample demoState (some 100)).2 = [])) ∧
     ((∀ last, demoState.memorySnapshots.getLast? = some last →
       (getMemorySample demoState (some 100)).2
         = demoState.memorySnapshots.filter
             (fun s => decide (last.createdAt - s.createdAt ≤ 100))) ∧
      (∀ last, demoState.eventLoopSnapshots.getLast? = some last →
       (getEventLoopSample demoState (some 100)).2
         = demoState.eventLoopSnapshots.filter
             (fun s => decide (last.createdAt - s.createdAt ≤ 100))) ∧
      (∀ last, demoState.cpuSnapshots.getLast? = some last →
       (getCpuSample demoState (some 100)).2
         = demoState.cpuSnapshots.filter
             (fun s => decide (last.createdAt - s.createdAt ≤ 100)))) ∧
     ((getMemorySample demoState (some 100)).2 <:+ demoState.memorySnapshots ∧
      (getEventLoopSample demoState (some 100)).2 <:+ demoState.eventLoopSnapshots ∧
      (getCpuSample demoState (some 100)).2 <:+ demoState.cpuSnapshots)) :=
  ⟨(by norm_num),
   (by rw [createdSorted, demoState]; exact List.pairwise_singleton ..),
   (by rw [createdSorted, demoState]; exact List.pairwise_singleton ..),
   (by rw [createdSorted, demoState]; exact List.pairwise_singleton ..),
   (getSample_window_behaviour demoState 100 (by norm_num)
     (by rw [createdSorted, demoState]; exact List.pairwise_singleton ..)
     (by rw [createdSorted, demoState]; exact List.pairwise_singleton ..)
     (by rw [createdSorted, demoState]; exact List.pairwise_singleton ..))⟩

/-- C1 counterexample: with `minFreeMemoryRatio = 0.3` and a 100-byte ceiling,
a tick measuring 50 bytes used records a snapshot flagged `isOverloaded`,
although the used fraction 0.5 does not exceed `1 - minFreeMemoryRatio = 0.7`
— so "overloaded exactly when the used fraction exceeds the complement of the
free-memory floor" is false: the code compares the used fraction against
`minFreeMemoryRatio` itself. -/
theorem snapshotMemory_complement_counterexample :
    (∃ s, ((snapshotMemory ceConfig initialSnapshotterState 0
        (Except.ok ceMemInfo)).1.memorySnapshots).getLast? = some s ∧
      s.isOverloaded = true) ∧
    ¬ ((ceMemInfo.mainProcessBytes + ceMemInfo.childProcessesBytes)
        / ceConfig.maxMemoryBytes > 1 - ceConfig.minFreeMemoryRatio) := by
  constructor
  · refine ⟨{ createdAt := 0,
              isOverloaded :=
                decide ((ceMemInfo.mainProcessBytes + ceMemInfo.childProcessesBytes)
                  / ceConfig.maxMemoryBytes > ceConfig.minFreeMemoryRatio),
              mainProcessBytes := ceMemInfo.mainProcessBytes,
              childProcessesBytes := ceMemInfo.childProcessesBytes }, rfl, ?_⟩
    rw [decide_eq_true_eq]
    show ((50 : ℚ) + 0) / (100 : ℚ) > 3/10
    norm_num
  · show ¬ (((50 : ℚ) + 0) / (100 : ℚ) > 1 - 3/10)
    norm_num

/-- C1 (amended): every successful memory sampling tick appends exactly one
snapshot, timestamped `now`, whose `isOverloaded` flag is set exactly when
`(mainProcessBytes + childProcessesBytes) / maxMemoryBytes` exceeds
`minFreeMemoryRatio` itself (not its complement): the overload threshold sits
at a used fraction of `minFreeMemoryRatio`, so samples at 95 % usage are
flagged for any `minFreeMemoryRatio < 0.95`. -/
theorem snapshotMemory_overload_threshold (cfg : SnapshotterConfig)
    (st : SnapshotterState) (now : ℚ) (mi : MemInfo) :
    ∃ pruned snap,
      (snapshotMemory cfg st now (Except.ok mi)).1.memorySnapshots
          = pruned ++ [snap] ∧
      snap.createdAt = now ∧
      snap.mainProcessBytes = mi.mainProcessBytes ∧
      snap.childProcessesBytes = mi.childProcessesBytes ∧
      (snap.isOverloaded = true ↔
        (mi.mainProcessBytes + mi.childProcessesBytes) / cfg.maxMemoryBytes
          > cfg.minFreeMemoryRatio) := by
  refine ⟨_, _, rfl, rfl, rfl, rfl, ?_⟩
  rw [decide_eq_true_eq]

/-- C8 (modelled from the spec): a single pool transition keeps
`desiredConcurrency` within `[minConcurrency, maxConcurrency]`. -/
lemma poolStep_bounds (minConcurrency maxConcurrency : ℤ)
    (h : minConcurrency ≤ maxConcurrency) (s : PoolState) (e : PoolEvent)
    (h1 : minConcurrency ≤ s.desiredConcurrency)
    (h2 : s.desiredConcurrency ≤ maxConcurrency) :
    minConcurrency ≤ (poolStep minConcurrency maxConcurrency s e).desiredConcurrency ∧
    (poolStep minConcurrency maxConcurrency s e).desiredConcurrency ≤ maxConcurrency := by
  cases e with
  | autoscaleTick systemIdle step =>
    have hstep : (0 : ℤ) ≤ (step : ℤ) := Int.natCast_nonneg step
    cases systemIdle with
    | false =>
      refine ⟨le_max_left _ _, ?_⟩
      show max minConcurrency (s.desiredConcurrency - (step : ℤ)) ≤ maxConcurrency
      exact max_le h (by linarith)
    | true =>
      refine ⟨?_, min_le_left _ _⟩
      show minConcurrency ≤ min maxConcurrency (s.desiredConcurrency + (step : ℤ))
      exact le_min h (by linarith)
  | launchTask => exact ⟨h1, h2⟩
  | completeTask => exact ⟨h1, h2⟩
  | pause => exact ⟨h1, h2⟩
  | resume => exact ⟨h1, h2⟩

/-- C8 (modelled from the spec, whose §8 lists this as a testable property,
the `AutoscaledPool` implementation being absent from the snapshot): for all
sequences of samples — i.e. all interleavings of autoscaling ticks (with
arbitrary step sizes) and task launches/completions after initialization —
`desiredConcurrency` never leaves `[minConcurrency, maxConcurrency]`. -/
theorem desiredConcurrency_bounded (minConcurrency maxConcurrency : ℤ)
    (h : minConcurrency ≤ maxConcurrency) (events : List PoolEvent) :
    minConcurrency ≤ (runPool minConcurrency maxConcurrency events).desiredConcurrency ∧
    (runPool minConcurrency maxConcurrency events).desiredConcurrency
      ≤ maxConcurrency := by
  suffices hall : ∀ (es : List PoolEvent) (s : PoolState),
      minConcurrency ≤ s.desiredConcurrency → s.desiredConcurrency ≤ maxConcurrency →
      minConcurrency ≤ (es.foldl (poolStep minConcurrency maxConcurrency) s).desiredConcurrency ∧
      (es.foldl (poolStep minConcurrency maxConcurrency) s).desiredConcurrency
        ≤ maxConcurrency by
    exact hall events (initialPoolState minConcurrency) (le_refl _) h
  intro es
  induction es with
  | nil => intro s h1 h2; exact ⟨h1, h2⟩
  | cons e es2 ih =>
    intro s h1 h2
    rw [List.foldl_cons]
    have hb := poolStep_bounds minConcurrency maxConcurrency h s e h1 h2
    exact ih _ hb.1 hb.2

/-- C8 witness: bounds hold for `minConcurrency = 1`, `maxConcurrency = 10`
under a concrete interleaving of idle and overloaded ticks, launches and
completions. -/
theorem desiredConcurrency_bounded_witness :
    (1 : ℤ) ≤ 10 ∧
    ((1 : ℤ) ≤ (runPool 1 10
        [PoolEvent.autoscaleTick true 5, PoolEvent.launchTask,
         PoolEvent.autoscaleTick true 20, PoolEvent.autoscaleTick false 100,
         PoolEvent.completeTask]).desiredConcurrency ∧
     (runPool 1 10
        [PoolEvent.autoscaleTick true 5, PoolEvent.launchTask,
         PoolEvent.autoscaleTick true 20, PoolEvent.autoscaleTick false 100,
         PoolEvent.completeTask]).desiredConcurrency ≤ 10) :=
  ⟨(by norm_num),
   (desiredConcurrency_bounded 1 10 (by norm_num)
     [PoolEvent.autoscaleTick true 5, PoolEvent.launchTask,
      PoolEvent.autoscaleTick true 20, PoolEvent.autoscaleTick false 100,
      PoolEvent.completeTask])⟩

end Apify
